import Mathlib

/-!
Verification of the `io_tee` stream-mirroring wrappers (`src/lib.rs`).

The crate is generic over arbitrary `Read` / `BufRead` / `Seek` / `Write`
implementations, so the embedding is parametric: an inner reader is an
arbitrary state type `ρ` together with a record of operations (`ReadOps`),
an inner writer is a state type `ω` with a record `WriteOps`.  Fallible
operations return a result carrying the updated stream state, because a
Rust stream taken by `&mut self` may mutate itself even on failure.

`TeeReader` and `TeeWriter` are translated method by method from
`src/lib.rs`.  Rust slice indexing `&buf[i..j]` panics when out of bounds;
the embedding models this with an explicit `oob` outcome (`TRes.oob`)
produced exactly when the slice bound check fails.

Properties about "what the mirror sink received" are stated against an
observation function `c : ω → List Nat` (the bytes captured so far)
subject to contracts such as `CapturesAll`: a successful full-write of
`buf` extends the captured bytes by exactly `buf`.  Concrete instances
(`bufReader`, `capSink`, ...) witness that the contracts are satisfiable.
-/

set_option autoImplicit false

namespace IoTee

/-- Abstract `std::io::Error` values; only identity matters, so a code suffices. -/
abbrev Error := Nat

/-- Result of an inner-stream operation: a value plus the updated stream
state, or an error plus the updated stream state. -/
inductive StRes (σ : Type) (α : Type) where
  | ok  : α → σ → StRes σ α
  | err : Error → σ → StRes σ α
  deriving DecidableEq

/-- Result of a wrapper operation: like `StRes`, plus `oob`, the outcome of
a Rust slice-index panic (`&buf[i..j]` with the bounds check failing). -/
inductive TRes (σ : Type) (α : Type) where
  | ok  : α → σ → TRes σ α
  | err : Error → σ → TRes σ α
  | oob : TRes σ α
  deriving DecidableEq

/-- Model of `std::io::SeekFrom`. -/
inductive SeekFrom where
  | start   : Nat → SeekFrom
  | fromEnd : Int → SeekFrom
  | current : Int → SeekFrom
  deriving DecidableEq

/-- The operations of an arbitrary inner reader (`R: Read + BufRead + Seek`),
over a state type `ρ`.  `read`-family operations take the caller buffer
(respectively accumulator) and return the byte count together with the
buffer contents after the call. -/
structure ReadOps (ρ : Type) where
  read           : ρ → List Nat → StRes ρ (Nat × List Nat)
  readToEnd      : ρ → List Nat → StRes ρ (Nat × List Nat)
  readExact      : ρ → List Nat → StRes ρ (List Nat)
  fillBuf        : ρ → StRes ρ (List Nat)
  consume        : ρ → Nat → ρ
  readUntil      : ρ → Nat → List Nat → StRes ρ (Nat × List Nat)
  readLine       : ρ → List Nat → StRes ρ (Nat × List Nat)
  seek           : ρ → SeekFrom → StRes ρ Nat
  streamPosition : ρ → StRes ρ Nat

/-- The operations of an arbitrary inner writer (`W: Write`), over a state
type `ω`.  `writeFmt` receives the formatted output pre-materialized as
bytes (formatting with `fmt::Arguments` is deterministic). -/
structure WriteOps (ω : Type) where
  write    : ω → List Nat → StRes ω Nat
  writeAll : ω → List Nat → StRes ω Unit
  flush    : ω → StRes ω Unit
  writeFmt : ω → List Nat → StRes ω Unit

/-- Rust slice `&l[i..j]`: `some` of the sub-list when the bounds check
`i <= j && j <= l.len()` passes, `none` (a panic) otherwise. -/
def listSlice (l : List Nat) (i j : Nat) : Option (List Nat) :=
  if i ≤ j ∧ j ≤ l.length then some ((l.take j).drop i) else none

/-- Structure `TeeReader` from `src/lib.rs`: a reader teeing its input to a writer. -/
structure TeeReader (ρ ω : Type) where
  reader : ρ
  writer : ω
  deriving DecidableEq

/-- Structure `TeeWriter` from `src/lib.rs`: a writer duplicating to two writers. -/
structure TeeWriter (l r : Type) where
  left  : l
  right : r
  deriving DecidableEq

variable {ρ ω l r : Type}

/-- Method `<TeeReader as Read>::read`:
`let len = self.reader.read(buf)?; self.writer.write_all(&buf[..len])?; Ok(len)`. -/
def TeeReader.read (RO : ReadOps ρ) (WO : WriteOps ω) (t : TeeReader ρ ω)
    (buf : List Nat) : TRes (TeeReader ρ ω) (Nat × List Nat) :=
  match RO.read t.reader buf with
  | .err e r' => .err e ⟨r', t.writer⟩
  | .ok (len, buf') r' =>
    match listSlice buf' 0 len with
    | none => .oob
    | some s =>
      match WO.writeAll t.writer s with
      | .err e w' => .err e ⟨r', w'⟩
      | .ok _ w' => .ok (len, buf') ⟨r', w'⟩

/-- Method `<TeeReader as Read>::read_to_end`:
`let start = buf.len(); let len = self.reader.read_to_end(buf)?;
self.writer.write_all(&buf[start..start + len])?; Ok(len)`.
`start` is the pre-call length of the accumulator, i.e. the length of
the input `buf` (the inner read only appends). -/
def TeeReader.readToEnd (RO : ReadOps ρ) (WO : WriteOps ω) (t : TeeReader ρ ω)
    (buf : List Nat) : TRes (TeeReader ρ ω) (Nat × List Nat) :=
  match RO.readToEnd t.reader buf with
  | .err e r' => .err e ⟨r', t.writer⟩
  | .ok (len, buf') r' =>
    match listSlice buf' buf.length (buf.length + len) with
    | none => .oob
    | some s =>
      match WO.writeAll t.writer s with
      | .err e w' => .err e ⟨r', w'⟩
      | .ok _ w' => .ok (len, buf') ⟨r', w'⟩

/-- Method `<TeeReader as Read>::read_exact`:
`self.reader.read_exact(buf)?; self.writer.write_all(&buf)?; Ok(())`.
The whole (post-call) buffer is mirrored; no slicing, so no `oob`. -/
def TeeReader.readExact (RO : ReadOps ρ) (WO : WriteOps ω) (t : TeeReader ρ ω)
    (buf : List Nat) : StRes (TeeReader ρ ω) (List Nat) :=
  match RO.readExact t.reader buf with
  | .err e r' => .err e ⟨r', t.writer⟩
  | .ok buf' r' =>
    match WO.writeAll t.writer buf' with
    | .err e w' => .err e ⟨r', w'⟩
    | .ok _ w' => .ok buf' ⟨r', w'⟩

/-- Method `<TeeReader as BufRead>::fill_buf`: `self.reader.fill_buf()`. -/
def TeeReader.fillBuf (RO : ReadOps ρ) (t : TeeReader ρ ω) :
    StRes (TeeReader ρ ω) (List Nat) :=
  match RO.fillBuf t.reader with
  | .err e r' => .err e ⟨r', t.writer⟩
  | .ok bs r' => .ok bs ⟨r', t.writer⟩

/-- Method `<TeeReader as BufRead>::consume`: `self.reader.consume(amt)`. -/
def TeeReader.consume (RO : ReadOps ρ) (t : TeeReader ρ ω) (amt : Nat) :
    TeeReader ρ ω :=
  ⟨RO.consume t.reader amt, t.writer⟩

/-- Method `<TeeReader as BufRead>::read_until`:
`let initial_len = buf.len(); let bytes_read = self.reader.read_until(byte, buf)?;
self.writer.write_all(&buf[initial_len..initial_len + bytes_read])?; Ok(bytes_read)`.
`initial_len` is the pre-call length of the accumulator, i.e. the input length. -/
def TeeReader.readUntil (RO : ReadOps ρ) (WO : WriteOps ω) (t : TeeReader ρ ω)
    (byte : Nat) (buf : List Nat) : TRes (TeeReader ρ ω) (Nat × List Nat) :=
  match RO.readUntil t.reader byte buf with
  | .err e r' => .err e ⟨r', t.writer⟩
  | .ok (bytesRead, buf') r' =>
    match listSlice buf' buf.length (buf.length + bytesRead) with
    | none => .oob
    | some s =>
      match WO.writeAll t.writer s with
      | .err e w' => .err e ⟨r', w'⟩
      | .ok _ w' => .ok (bytesRead, buf') ⟨r', w'⟩

/-- Method `<TeeReader as BufRead>::read_line`: same shape as `read_until`, on the
byte content of the `String` accumulator. -/
def TeeReader.readLine (RO : ReadOps ρ) (WO : WriteOps ω) (t : TeeReader ρ ω)
    (buf : List Nat) : TRes (TeeReader ρ ω) (Nat × List Nat) :=
  match RO.readLine t.reader buf with
  | .err e r' => .err e ⟨r', t.writer⟩
  | .ok (bytesRead, buf') r' =>
    match listSlice buf' buf.length (buf.length + bytesRead) with
    | none => .oob
    | some s =>
      match WO.writeAll t.writer s with
      | .err e w' => .err e ⟨r', w'⟩
      | .ok _ w' => .ok (bytesRead, buf') ⟨r', w'⟩

/-- Method `<TeeReader as Seek>::seek`: `self.reader.seek(pos)`. -/
def TeeReader.seek (RO : ReadOps ρ) (t : TeeReader ρ ω) (pos : SeekFrom) :
    StRes (TeeReader ρ ω) Nat :=
  match RO.seek t.reader pos with
  | .err e r' => .err e ⟨r', t.writer⟩
  | .ok n r' => .ok n ⟨r', t.writer⟩

/-- Method `<TeeReader as Seek>::stream_position`: `self.reader.stream_position()`. -/
def TeeReader.streamPosition (RO : ReadOps ρ) (t : TeeReader ρ ω) :
    StRes (TeeReader ρ ω) Nat :=
  match RO.streamPosition t.reader with
  | .err e r' => .err e ⟨r', t.writer⟩
  | .ok n r' => .ok n ⟨r', t.writer⟩

/-- Method `<TeeWriter as Write>::write`:
`let n = self.left.write(&buf[..])?; self.right.write_all(&buf[..n])?; Ok(n)`. -/
def TeeWriter.write (LO : WriteOps l) (RO : WriteOps r) (t : TeeWriter l r)
    (buf : List Nat) : TRes (TeeWriter l r) Nat :=
  match LO.write t.left buf with
  | .err e l' => .err e ⟨l', t.right⟩
  | .ok n l' =>
    match listSlice buf 0 n with
    | none => .oob
    | some s =>
      match RO.writeAll t.right s with
      | .err e r' => .err e ⟨l', r'⟩
      | .ok _ r' => .ok n ⟨l', r'⟩

/-- Method `<TeeWriter as Write>::flush`:
`self.left.flush()?; self.right.flush()?; Ok(())`. -/
def TeeWriter.flush (LO : WriteOps l) (RO : WriteOps r) (t : TeeWriter l r) :
    StRes (TeeWriter l r) Unit :=
  match LO.flush t.left with
  | .err e l' => .err e ⟨l', t.right⟩
  | .ok _ l' =>
    match RO.flush t.right with
    | .err e r' => .err e ⟨l', r'⟩
    | .ok _ r' => .ok () ⟨l', r'⟩

/-- Method `<TeeWriter as Write>::write_all`:
`self.left.write_all(buf)?; self.right.write_all(buf)?; Ok(())`. -/
def TeeWriter.writeAll (LO : WriteOps l) (RO : WriteOps r) (t : TeeWriter l r)
    (buf : List Nat) : StRes (TeeWriter l r) Unit :=
  match LO.writeAll t.left buf with
  | .err e l' => .err e ⟨l', t.right⟩
  | .ok _ l' =>
    match RO.writeAll t.right buf with
    | .err e r' => .err e ⟨l', r'⟩
    | .ok _ r' => .ok () ⟨l', r'⟩

/-- Method `<TeeWriter as Write>::write_fmt`:
`self.left.write_fmt(fmt)?; self.right.write_fmt(fmt)?; Ok(())`, with the
formatted output of `fmt` materialized as `bytes`. -/
def TeeWriter.writeFmt (LO : WriteOps l) (RO : WriteOps r) (t : TeeWriter l r)
    (bytes : List Nat) : StRes (TeeWriter l r) Unit :=
  match LO.writeFmt t.left bytes with
  | .err e l' => .err e ⟨l', t.right⟩
  | .ok _ l' =>
    match RO.writeFmt t.right bytes with
    | .err e r' => .err e ⟨l', r'⟩
    | .ok _ r' => .ok () ⟨l', r'⟩

/-- A sequence of successful `write_all` calls, stopping at the first
failure (used to state the multi-call part of the write-all property). -/
def TeeWriter.writeAllSeq (LO : WriteOps l) (RO : WriteOps r) :
    TeeWriter l r → List (List Nat) → StRes (TeeWriter l r) Unit
  | t, [] => .ok () t
  | t, c :: cs =>
    match TeeWriter.writeAll LO RO t c with
    | .err e t' => .err e t'
    | .ok _ t' => TeeWriter.writeAllSeq LO RO t' cs

/-- A sequence of `fill_buf` / `consume` calls (the "peek" layer), used to
state that no amount of peeking touches the mirror sink. -/
inductive PeekOp where
  | fill : PeekOp
  | eat  : Nat → PeekOp
  deriving DecidableEq

/-- Run a list of peek-layer operations on a `TeeReader`, keeping the
resulting wrapper state whether each `fill_buf` succeeds or fails. -/
def TeeReader.runPeeks (RO : ReadOps ρ) :
    TeeReader ρ ω → List PeekOp → TeeReader ρ ω
  | t, [] => t
  | t, .fill :: ops =>
    match TeeReader.fillBuf RO t with
    | .ok _ t' => TeeReader.runPeeks RO t' ops
    | .err _ t' => TeeReader.runPeeks RO t' ops
  | t, .eat n :: ops => TeeReader.runPeeks RO (TeeReader.consume RO t n) ops

/-- Capture contract for a mirror sink: a successful `write_all buf`
extends the captured byte trace `c` by exactly `buf`. -/
def CapturesAll (WO : WriteOps ω) (c : ω → List Nat) : Prop :=
  ∀ w buf u w', WO.writeAll w buf = .ok u w' → c w' = c w ++ buf

/-- Capture contract for `write`: a write accepting `n` bytes of `buf`
extends the captured trace by exactly `buf[0..n]`, with `n ≤ buf.length`. -/
def CapturesWrite (WO : WriteOps ω) (c : ω → List Nat) : Prop :=
  ∀ w buf n w', WO.write w buf = .ok n w' →
    n ≤ buf.length ∧ c w' = c w ++ buf.take n

/-- Capture contract for `write_fmt`: a successful formatted write extends
the captured trace by exactly the materialized format bytes. -/
def CapturesFmt (WO : WriteOps ω) (c : ω → List Nat) : Prop :=
  ∀ w bytes u w', WO.writeFmt w bytes = .ok u w' → c w' = c w ++ bytes

/-- Everything up to and including the first occurrence of `b` (the
`read_until` prefix of a byte stream). -/
def takeThrough (b : Nat) : List Nat → List Nat
  | [] => []
  | x :: xs => if x = b then [x] else x :: takeThrough b xs

/-- A concrete well-behaved reader over a byte list (`&[u8]` as `Read`),
used to witness the parametric theorems on satisfiable inputs. -/
def bufReader : ReadOps (List Nat) where
  read s buf :=
    let n := min s.length buf.length
    .ok (n, s.take n ++ buf.drop n) (s.drop n)
  readToEnd s buf := .ok (s.length, buf ++ s) []
  readExact s buf :=
    if buf.length ≤ s.length then .ok (s.take buf.length) (s.drop buf.length)
    else .err 0 []
  fillBuf s := .ok s s
  consume s n := s.drop n
  readUntil s b buf :=
    let pfx := takeThrough b s
    .ok (pfx.length, buf ++ pfx) (s.drop pfx.length)
  readLine s buf :=
    let pfx := takeThrough 10 s
    .ok (pfx.length, buf ++ pfx) (s.drop pfx.length)
  seek s _ := .ok 0 s
  streamPosition s := .ok 0 s

/-- A concrete capturing sink: state is the list of bytes received; every
write succeeds and appends.  Satisfies all three capture contracts with
`c = id`. -/
def capSink : WriteOps (List Nat) where
  write w buf := .ok buf.length (w ++ buf)
  writeAll w buf := .ok () (w ++ buf)
  flush w := .ok () w
  writeFmt w buf := .ok () (w ++ buf)

/-- A capturing sink whose single-chunk `write` accepts at most one byte
(a short writer), for the short-write witnesses. -/
def oneSink : WriteOps (List Nat) where
  write w buf :=
    let n := min 1 buf.length
    .ok n (w ++ buf.take n)
  writeAll w buf := .ok () (w ++ buf)
  flush w := .ok () w
  writeFmt w buf := .ok () (w ++ buf)

/-- A reader whose every fallible operation fails with error 7, for the
failure-propagation witnesses. -/
def failReader : ReadOps Unit where
  read _ _ := .err 7 ()
  readToEnd _ _ := .err 7 ()
  readExact _ _ := .err 7 ()
  fillBuf _ := .err 7 ()
  consume _ _ := ()
  readUntil _ _ _ := .err 7 ()
  readLine _ _ := .err 7 ()
  seek _ _ := .err 7 ()
  streamPosition _ := .err 7 ()

/-- A writer whose every operation fails with error 9, for the
failure-propagation witnesses. -/
def failSink : WriteOps Unit where
  write _ _ := .err 9 ()
  writeAll _ _ := .err 9 ()
  flush _ := .err 9 ()
  writeFmt _ _ := .err 9 ()

/-! ## Helper lemmas -/

theorem listSlice_eq_some {a : List Nat} {i j : Nat} {s : List Nat}
    (h : listSlice a i j = some s) :
    i ≤ j ∧ j ≤ a.length ∧ s = (a.take j).drop i := by
  unfold listSlice at h
  split at h
  · rename_i hc
    exact ⟨hc.1, hc.2, (Option.some.injEq _ _ ▸ h).symm⟩
  · cases h

theorem listSlice_of_le {a : List Nat} {j : Nat} (h : j ≤ a.length) :
    listSlice a 0 j = some (a.take j) := by
  unfold listSlice
  rw [if_pos ⟨Nat.zero_le j, h⟩, List.drop_zero]

theorem capSink_capturesAll : CapturesAll capSink id := by
  intro w buf u w' h
  cases h
  simp

/-- Inversion for a successful `TeeReader.read`: the inner read returned
exactly the same count and buffer, the slice was in bounds, and the sink's
`write_all` succeeded on `buf'[0..n]`. -/
theorem TeeReader.read_ok_inv {RO : ReadOps ρ} {WO : WriteOps ω}
    {t t' : TeeReader ρ ω} {buf buf' : List Nat} {n : Nat}
    (h : TeeReader.read RO WO t buf = .ok (n, buf') t') :
    n ≤ buf'.length ∧
      RO.read t.reader buf = .ok (n, buf') t'.reader ∧
      WO.writeAll t.writer (buf'.take n) = .ok () t'.writer := by
  unfold TeeReader.read at h
  split at h
  · cases h
  · rename_i len nb r' hr
    split at h
    · cases h
    · rename_i s hs
      split at h
      · cases h
      · rename_i u w' hw
        cases h
        obtain ⟨-, hlen, hseq⟩ := listSlice_eq_some hs
        cases u
        rw [hseq, List.drop_zero] at hw
        exact ⟨hlen, hr, hw⟩

/-- Inversion for a successful `TeeReader.readToEnd`: the slice of the new
region was in bounds and was passed whole to the `write_all` of the sink. -/
theorem TeeReader.readToEnd_ok_inv {RO : ReadOps ρ} {WO : WriteOps ω}
    {t t' : TeeReader ρ ω} {buf buf' : List Nat} {n : Nat}
    (h : TeeReader.readToEnd RO WO t buf = .ok (n, buf') t') :
    buf.length + n ≤ buf'.length ∧
      RO.readToEnd t.reader buf = .ok (n, buf') t'.reader ∧
      WO.writeAll t.writer ((buf'.take (buf.length + n)).drop buf.length) =
        .ok () t'.writer := by
  unfold TeeReader.readToEnd at h
  split at h
  · cases h
  · rename_i len nb r' hr
    split at h
    · cases h
    · rename_i s hs
      split at h
      · cases h
      · rename_i u w' hw
        cases h
        obtain ⟨-, hlen, hseq⟩ := listSlice_eq_some hs
        cases u
        rw [hseq] at hw
        exact ⟨hlen, hr, hw⟩

/-- Inversion for a successful `TeeReader.readUntil`, as for `readToEnd`. -/
theorem TeeReader.readUntil_ok_inv {RO : ReadOps ρ} {WO : WriteOps ω}
    {t t' : TeeReader ρ ω} {byte : Nat} {buf buf' : List Nat} {n : Nat}
    (h : TeeReader.readUntil RO WO t byte buf = .ok (n, buf') t') :
    buf.length + n ≤ buf'.length ∧
      RO.readUntil t.reader byte buf = .ok (n, buf') t'.reader ∧
      WO.writeAll t.writer ((buf'.take (buf.length + n)).drop buf.length) =
        .ok () t'.writer := by
  unfold TeeReader.readUntil at h
  split at h
  · cases h
  · rename_i len nb r' hr
    split at h
    · cases h
    · rename_i s hs
      split at h
      · cases h
      · rename_i u w' hw
        cases h
        obtain ⟨-, hlen, hseq⟩ := listSlice_eq_some hs
        cases u
        rw [hseq] at hw
        exact ⟨hlen, hr, hw⟩

/-- Inversion for a successful `TeeReader.readLine`, as for `readToEnd`. -/
theorem TeeReader.readLine_ok_inv {RO : ReadOps ρ} {WO : WriteOps ω}
    {t t' : TeeReader ρ ω} {buf buf' : List Nat} {n : Nat}
    (h : TeeReader.readLine RO WO t buf = .ok (n, buf') t') :
    buf.length + n ≤ buf'.length ∧
      RO.readLine t.reader buf = .ok (n, buf') t'.reader ∧
      WO.writeAll t.writer ((buf'.take (buf.length + n)).drop buf.length) =
        .ok () t'.writer := by
  unfold TeeReader.readLine at h
  split at h
  · cases h
  · rename_i len nb r' hr
    split at h
    · cases h
    · rename_i s hs
      split at h
      · cases h
      · rename_i u w' hw
        cases h
        obtain ⟨-, hlen, hseq⟩ := listSlice_eq_some hs
        cases u
        rw [hseq] at hw
        exact ⟨hlen, hr, hw⟩

/-- Inversion for a successful `TeeWriter.write`: left accepted `n ≤ |buf|`
bytes and the `write_all` of the right sink succeeded on `buf[0..n]`. -/
theorem TeeWriter.write_ok_inv {LO : WriteOps l} {RO : WriteOps r}
    {t t' : TeeWriter l r} {buf : List Nat} {n : Nat}
    (h : TeeWriter.write LO RO t buf = .ok n t') :
    n ≤ buf.length ∧
      LO.write t.left buf = .ok n t'.left ∧
      RO.writeAll t.right (buf.take n) = .ok () t'.right := by
  unfold TeeWriter.write at h
  split at h
  · cases h
  · rename_i m l' hl
    split at h
    · cases h
    · rename_i s hs
      split at h
      · cases h
      · rename_i u r' hw
        cases h
        obtain ⟨-, hlen, hseq⟩ := listSlice_eq_some hs
        cases u
        rw [hseq, List.drop_zero] at hw
        exact ⟨hlen, hl, hw⟩

/-- Inversion for a successful `TeeWriter.writeAll`: both inner full-writes
succeeded on the entire buffer. -/
theorem TeeWriter.writeAll_ok_inv {LO : WriteOps l} {RO : WriteOps r}
    {t t' : TeeWriter l r} {buf : List Nat}
    (h : TeeWriter.writeAll LO RO t buf = .ok () t') :
    LO.writeAll t.left buf = .ok () t'.left ∧
      RO.writeAll t.right buf = .ok () t'.right := by
  unfold TeeWriter.writeAll at h
  split at h
  · cases h
  · rename_i u l' hl
    split at h
    · cases h
    · rename_i v r' hr
      cases h
      cases u
      cases v
      exact ⟨hl, hr⟩

/-- C1: a successful single-chunk read of `n` bytes through `TeeReader::read`
appends exactly `buf[0..n]` (the bytes placed in the caller buffer) to the
captured trace of the mirror sink, and the returned count is that of the primary. -/
theorem teeReader_read_mirrors_exactly
    (RO : ReadOps ρ) (WO : WriteOps ω) (c : ω → List Nat)
    (hcap : CapturesAll WO c)
    (t t' : TeeReader ρ ω) (buf buf' : List Nat) (n : Nat)
    (h : TeeReader.read RO WO t buf = .ok (n, buf') t') :
    c t'.writer = c t.writer ++ buf'.take n ∧
      RO.read t.reader buf = .ok (n, buf') t'.reader := by
  obtain ⟨hn, hr, hw⟩ := TeeReader.read_ok_inv h
  exact ⟨hcap _ _ _ _ hw, hr⟩

/-- C1 witness: reading `[7, 8, 9]` through a 2-byte buffer mirrors `[7, 8]`. -/
theorem teeReader_read_mirrors_exactly_witness :
    id ((⟨[9], [7, 8]⟩ : TeeReader (List Nat) (List Nat)).writer) =
        id ((⟨[7, 8, 9], ([] : List Nat)⟩ : TeeReader (List Nat) (List Nat)).writer)
          ++ ([7, 8] : List Nat).take 2 ∧
      bufReader.read [7, 8, 9] [0, 0] = .ok (2, [7, 8]) [9] :=
  teeReader_read_mirrors_exactly bufReader capSink id capSink_capturesAll
    ⟨[7, 8, 9], []⟩ ⟨[9], [7, 8]⟩ [0, 0] [7, 8] 2 (by decide)

/-- C2: every successful accumulator-appending read (`read_to_end`,
`read_until`, `read_line`) on an accumulator of prior length `L = buf.length`
appends to the captured trace of the mirror sink exactly the newly appended
region `buf'[L..L+n]` and nothing else. -/
theorem teeReader_append_reads_mirror_new_region
    (RO : ReadOps ρ) (WO : WriteOps ω) (c : ω → List Nat)
    (hcap : CapturesAll WO c) :
    (∀ (t t' : TeeReader ρ ω) (buf buf' : List Nat) (n : Nat),
        TeeReader.readToEnd RO WO t buf = .ok (n, buf') t' →
          c t'.writer = c t.writer ++ (buf'.take (buf.length + n)).drop buf.length) ∧
    (∀ (t t' : TeeReader ρ ω) (byte : Nat) (buf buf' : List Nat) (n : Nat),
        TeeReader.readUntil RO WO t byte buf = .ok (n, buf') t' →
          c t'.writer = c t.writer ++ (buf'.take (buf.length + n)).drop buf.length) ∧
    (∀ (t t' : TeeReader ρ ω) (buf buf' : List Nat) (n : Nat),
        TeeReader.readLine RO WO t buf = .ok (n, buf') t' →
          c t'.writer = c t.writer ++ (buf'.take (buf.length + n)).drop buf.length) := by
  refine ⟨?_, ?_, ?_⟩
  · intro t t' buf buf' n h
    obtain ⟨-, -, hw⟩ := TeeReader.readToEnd_ok_inv h
    exact hcap _ _ _ _ hw
  · intro t t' byte buf buf' n h
    obtain ⟨-, -, hw⟩ := TeeReader.readUntil_ok_inv h
    exact hcap _ _ _ _ hw
  · intro t t' buf buf' n h
    obtain ⟨-, -, hw⟩ := TeeReader.readLine_ok_inv h
    exact hcap _ _ _ _ hw

/-- C2 witness: `read_to_end` of `[1, 2, 3]` onto the non-empty accumulator
`[5, 5]` mirrors only `[1, 2, 3]`, not the prior contents. -/
theorem teeReader_append_reads_mirror_new_region_witness :
    id ((⟨[], [1, 2, 3]⟩ : TeeReader (List Nat) (List Nat)).writer) =
      id ((⟨[1, 2, 3], ([] : List Nat)⟩ : TeeReader (List Nat) (List Nat)).writer) ++
        (([5, 5, 1, 2, 3] : List Nat).take (([5, 5] : List Nat).length + 3)).drop
          ([5, 5] : List Nat).length :=
  (teeReader_append_reads_mirror_new_region bufReader capSink id
      capSink_capturesAll).1
    ⟨[1, 2, 3], []⟩ ⟨[], [1, 2, 3]⟩ [5, 5] [5, 5, 1, 2, 3] 3 (by decide)

/-- C3: when `TeeWriter.write` succeeds returning `n` with `n < buf.length`
(a short write on the left stream), the captured trace of the right stream grows
by exactly `buf[0..n]` — which is not the full buffer — and `n` is exactly
the count the left stream accepted. -/
theorem teeWriter_write_short_mirrors_prefix
    (LO : WriteOps l) (RO : WriteOps r) (c : r → List Nat)
    (hcap : CapturesAll RO c)
    (t t' : TeeWriter l r) (buf : List Nat) (n : Nat)
    (h : TeeWriter.write LO RO t buf = .ok n t') (hn : n < buf.length) :
    c t'.right = c t.right ++ buf.take n ∧
      c t'.right ≠ c t.right ++ buf ∧
      LO.write t.left buf = .ok n t'.left := by
  obtain ⟨-, hl, hw⟩ := TeeWriter.write_ok_inv h
  have hcapeq := hcap _ _ _ _ hw
  refine ⟨hcapeq, ?_, hl⟩
  rw [hcapeq]
  intro heq
  have htake := List.append_cancel_left heq
  have hlen := congrArg List.length htake
  rw [List.length_take] at hlen
  omega

/-- C3 witness: a left stream accepting one byte of `[4, 5, 6]` mirrors
exactly `[4]` to the right stream, and the call returns 1. -/
theorem teeWriter_write_short_mirrors_prefix_witness :
    id ((⟨[4], [4]⟩ : TeeWriter (List Nat) (List Nat)).right) =
        id ((⟨([] : List Nat), ([] : List Nat)⟩ : TeeWriter (List Nat) (List Nat)).right) ++
          ([4, 5, 6] : List Nat).take 1 ∧
      id ((⟨[4], [4]⟩ : TeeWriter (List Nat) (List Nat)).right) ≠
        id ((⟨([] : List Nat), ([] : List Nat)⟩ : TeeWriter (List Nat) (List Nat)).right) ++
          ([4, 5, 6] : List Nat) ∧
      oneSink.write [] [4, 5, 6] = .ok 1 [4] :=
  teeWriter_write_short_mirrors_prefix oneSink capSink id capSink_capturesAll
    ⟨[], []⟩ ⟨[4], [4]⟩ [4, 5, 6] 1 (by decide) (by decide)

/-- C4: a successful `TeeWriter.write_all` of `buf` extends both the left
and the right captured traces by exactly `buf`; and a sequence of
successful `write_all` calls extends both traces by the concatenation of
the buffers in call order. -/
theorem teeWriter_writeAll_mirrors_both
    (LO : WriteOps l) (RO : WriteOps r) (cl : l → List Nat) (cr : r → List Nat)
    (hl : CapturesAll LO cl) (hr : CapturesAll RO cr) :
    (∀ (t t' : TeeWriter l r) (buf : List Nat),
        TeeWriter.writeAll LO RO t buf = .ok () t' →
          cl t'.left = cl t.left ++ buf ∧ cr t'.right = cr t.right ++ buf) ∧
    (∀ (t t' : TeeWriter l r) (cs : List (List Nat)),
        TeeWriter.writeAllSeq LO RO t cs = .ok () t' →
          cl t'.left = cl t.left ++ cs.flatten ∧
            cr t'.right = cr t.right ++ cs.flatten) := by
  have hsingle : ∀ (t t' : TeeWriter l r) (buf : List Nat),
      TeeWriter.writeAll LO RO t buf = .ok () t' →
        cl t'.left = cl t.left ++ buf ∧ cr t'.right = cr t.right ++ buf := by
    intro t t' buf h
    obtain ⟨h1, h2⟩ := TeeWriter.writeAll_ok_inv h
    exact ⟨hl _ _ _ _ h1, hr _ _ _ _ h2⟩
  refine ⟨hsingle, ?_⟩
  intro t t' cs
  induction cs generalizing t with
  | nil =>
    intro h
    unfold TeeWriter.writeAllSeq at h
    cases h
    simp
  | cons ch ct ih =>
    intro h
    unfold TeeWriter.writeAllSeq at h
    split at h
    · cases h
    · rename_i u tm hm
      cases u
      obtain ⟨h1, h2⟩ := hsingle _ _ _ hm
      obtain ⟨h3, h4⟩ := ih _ h
      rw [h3, h1, h4, h2, List.flatten_cons]
      simp

/-- C4 witness (Scenario D): writing `"abc"` then `"def"` via two
`write_all` calls leaves both targets holding `"abcdef"`. -/
theorem teeWriter_writeAll_mirrors_both_witness :
    id ((⟨[97, 98, 99, 100, 101, 102], [97, 98, 99, 100, 101, 102]⟩ :
          TeeWriter (List Nat) (List Nat)).left) =
        id ((⟨([] : List Nat), ([] : List Nat)⟩ : TeeWriter (List Nat) (List Nat)).left) ++
          ([[97, 98, 99], [100, 101, 102]] : List (List Nat)).flatten ∧
      id ((⟨[97, 98, 99, 100, 101, 102], [97, 98, 99, 100, 101, 102]⟩ :
          TeeWriter (List Nat) (List Nat)).right) =
        id ((⟨([] : List Nat), ([] : List Nat)⟩ : TeeWriter (List Nat) (List Nat)).right) ++
          ([[97, 98, 99], [100, 101, 102]] : List (List Nat)).flatten :=
  (teeWriter_writeAll_mirrors_both capSink capSink id id
      capSink_capturesAll capSink_capturesAll).2
    ⟨[], []⟩ ⟨[97, 98, 99, 100, 101, 102], [97, 98, 99, 100, 101, 102]⟩
    [[97, 98, 99], [100, 101, 102]] (by decide)

/-- C5: for every operation of either wrapper, a failure of the delegated
primary (reader) / left operation is returned verbatim and the mirror
sink / right stream state is exactly the pre-call state: no mirror write
happens for that call. -/
theorem tee_primary_failure_short_circuit
    (RO : ReadOps ρ) (WO : WriteOps ω) (LO : WriteOps l) (RW : WriteOps r) :
    (∀ (t : TeeReader ρ ω) (buf : List Nat) (e : Error) (r' : ρ),
        RO.read t.reader buf = .err e r' →
          TeeReader.read RO WO t buf = .err e ⟨r', t.writer⟩) ∧
    (∀ (t : TeeReader ρ ω) (buf : List Nat) (e : Error) (r' : ρ),
        RO.readToEnd t.reader buf = .err e r' →
          TeeReader.readToEnd RO WO t buf = .err e ⟨r', t.writer⟩) ∧
    (∀ (t : TeeReader ρ ω) (buf : List Nat) (e : Error) (r' : ρ),
        RO.readExact t.reader buf = .err e r' →
          TeeReader.readExact RO WO t buf = .err e ⟨r', t.writer⟩) ∧
    (∀ (t : TeeReader ρ ω) (byte : Nat) (buf : List Nat) (e : Error) (r' : ρ),
        RO.readUntil t.reader byte buf = .err e r' →
          TeeReader.readUntil RO WO t byte buf = .err e ⟨r', t.writer⟩) ∧
    (∀ (t : TeeReader ρ ω) (buf : List Nat) (e : Error) (r' : ρ),
        RO.readLine t.reader buf = .err e r' →
          TeeReader.readLine RO WO t buf = .err e ⟨r', t.writer⟩) ∧
    (∀ (t : TeeReader ρ ω) (e : Error) (r' : ρ),
        RO.fillBuf t.reader = .err e r' →
          TeeReader.fillBuf RO t = .err e ⟨r', t.writer⟩) ∧
    (∀ (t : TeeReader ρ ω) (pos : SeekFrom) (e : Error) (r' : ρ),
        RO.seek t.reader pos = .err e r' →
          TeeReader.seek RO t pos = .err e ⟨r', t.writer⟩) ∧
    (∀ (t : TeeReader ρ ω) (e : Error) (r' : ρ),
        RO.streamPosition t.reader = .err e r' →
          TeeReader.streamPosition RO t = .err e ⟨r', t.writer⟩) ∧
    (∀ (t : TeeWriter l r) (buf : List Nat) (e : Error) (l' : l),
        LO.write t.left buf = .err e l' →
          TeeWriter.write LO RW t buf = .err e ⟨l', t.right⟩) ∧
    (∀ (t : TeeWriter l r) (buf : List Nat) (e : Error) (l' : l),
        LO.writeAll t.left buf = .err e l' →
          TeeWriter.writeAll LO RW t buf = .err e ⟨l', t.right⟩) ∧
    (∀ (t : TeeWriter l r) (bytes : List Nat) (e : Error) (l' : l),
        LO.writeFmt t.left bytes = .err e l' →
          TeeWriter.writeFmt LO RW t bytes = .err e ⟨l', t.right⟩) ∧
    (∀ (t : TeeWriter l r) (e : Error) (l' : l),
        LO.flush t.left = .err e l' →
          TeeWriter.flush LO RW t = .err e ⟨l', t.right⟩) := by
  refine ⟨?_, ?_, ?_, ?_, ?_, ?_, ?_, ?_, ?_, ?_, ?_, ?_⟩
  · intro t buf e r' h
    unfold TeeReader.read
    rw [h]
  · intro t buf e r' h
    unfold TeeReader.readToEnd
    rw [h]
  · intro t buf e r' h
    unfold TeeReader.readExact
    rw [h]
  · intro t byte buf e r' h
    unfold TeeReader.readUntil
    rw [h]
  · intro t buf e r' h
    unfold TeeReader.readLine
    rw [h]
  · intro t e r' h
    unfold TeeReader.fillBuf
    rw [h]
  · intro t pos e r' h
    unfold TeeReader.seek
    rw [h]
  · intro t e r' h
    unfold TeeReader.streamPosition
    rw [h]
  · intro t buf e l' h
    unfold TeeWriter.write
    rw [h]
  · intro t buf e l' h
    unfold TeeWriter.writeAll
    rw [h]
  · intro t bytes e l' h
    unfold TeeWriter.writeFmt
    rw [h]
  · intro t e l' h
    unfold TeeWriter.flush
    rw [h]

/-- C5 witness: a failing reader propagates error 7 leaving the sink state
`[3]` untouched; a failing left writer propagates error 9 likewise. -/
theorem tee_primary_failure_short_circuit_witness :
    TeeReader.read failReader capSink ⟨(), [3]⟩ [0] = .err 7 ⟨(), [3]⟩ ∧
      TeeWriter.write failSink capSink ⟨(), [3]⟩ [1, 2] = .err 9 ⟨(), [3]⟩ :=
  ⟨(tee_primary_failure_short_circuit failReader capSink failSink capSink).1
      ⟨(), [3]⟩ [0] 7 () (by decide),
    (tee_primary_failure_short_circuit failReader capSink failSink
          capSink).2.2.2.2.2.2.2.2.1
      ⟨(), [3]⟩ [1, 2] 9 () (by decide)⟩

/-- Inversion for `TeeReader.fillBuf` succeeding: pure delegation, writer
untouched. -/
theorem TeeReader.fillBuf_ok_inv {RO : ReadOps ρ} {t t' : TeeReader ρ ω}
    {bs : List Nat} (h : TeeReader.fillBuf RO t = .ok bs t') :
    t'.writer = t.writer ∧ RO.fillBuf t.reader = .ok bs t'.reader := by
  unfold TeeReader.fillBuf at h
  split at h
  · cases h
  · rename_i bs2 r' hr
    cases h
    exact ⟨rfl, hr⟩

/-- Inversion for `TeeReader.fillBuf` failing: pure delegation, writer
untouched. -/
theorem TeeReader.fillBuf_err_inv {RO : ReadOps ρ} {t t' : TeeReader ρ ω}
    {e : Error} (h : TeeReader.fillBuf RO t = .err e t') :
    t'.writer = t.writer ∧ RO.fillBuf t.reader = .err e t'.reader := by
  unfold TeeReader.fillBuf at h
  split at h
  · rename_i e2 r' hr
    cases h
    exact ⟨rfl, hr⟩
  · cases h

/-- C6: the peek layer never touches the mirror sink: any sequence of
`fill_buf` / `consume` calls leaves the writer component exactly as it
was, and each single call is a pure delegation to the primary. -/
theorem teeReader_peek_layer_pure_delegation (RO : ReadOps ρ) :
    (∀ (t : TeeReader ρ ω) (ops : List PeekOp),
        (TeeReader.runPeeks RO t ops).writer = t.writer) ∧
    (∀ (t : TeeReader ρ ω) (amt : Nat),
        TeeReader.consume RO t amt =
          ⟨RO.consume t.reader amt, t.writer⟩) ∧
    (∀ (t t' : TeeReader ρ ω) (bs : List Nat),
        TeeReader.fillBuf RO t = .ok bs t' →
          t'.writer = t.writer ∧ RO.fillBuf t.reader = .ok bs t'.reader) ∧
    (∀ (t t' : TeeReader ρ ω) (e : Error),
        TeeReader.fillBuf RO t = .err e t' →
          t'.writer = t.writer ∧ RO.fillBuf t.reader = .err e t'.reader) := by
  refine ⟨?_, ?_, ?_, ?_⟩
  · intro t ops
    induction ops generalizing t with
    | nil => rfl
    | cons op ops ih =>
      cases op with
      | fill =>
        unfold TeeReader.runPeeks
        split
        · rename_i bs t' hf
          rw [ih t']
          exact (TeeReader.fillBuf_ok_inv hf).1
        · rename_i e t' hf
          rw [ih t']
          exact (TeeReader.fillBuf_err_inv hf).1
      | eat n =>
        unfold TeeReader.runPeeks
        rw [ih]
        rfl
  · intro t amt
    rfl
  · intro t t' bs h
    exact TeeReader.fillBuf_ok_inv h
  · intro t t' e h
    exact TeeReader.fillBuf_err_inv h

/-- C6 witness: peeking twice and consuming once on `[1, 2]` leaves the
sink trace `[9]` unchanged, and a concrete `fill_buf` delegates purely. -/
theorem teeReader_peek_layer_pure_delegation_witness :
    (TeeReader.runPeeks bufReader
        (⟨[1, 2], [9]⟩ : TeeReader (List Nat) (List Nat))
        [.fill, .eat 1, .fill]).writer = [9] ∧
      TeeReader.consume bufReader
          (⟨[1, 2], [9]⟩ : TeeReader (List Nat) (List Nat)) 1 =
        ⟨bufReader.consume [1, 2] 1, [9]⟩ :=
  ⟨(teeReader_peek_layer_pure_delegation bufReader).1 ⟨[1, 2], [9]⟩
      [.fill, .eat 1, .fill],
    (teeReader_peek_layer_pure_delegation bufReader).2.1 ⟨[1, 2], [9]⟩ 1⟩

/-- Inversion for a successful `TeeReader.readExact`: the inner exact-read
succeeded and the `write_all` of the sink received the entire post-call buffer. -/
theorem TeeReader.readExact_ok_inv {RO : ReadOps ρ} {WO : WriteOps ω}
    {t t' : TeeReader ρ ω} {buf buf' : List Nat}
    (h : TeeReader.readExact RO WO t buf = .ok buf' t') :
    RO.readExact t.reader buf = .ok buf' t'.reader ∧
      WO.writeAll t.writer buf' = .ok () t'.writer := by
  unfold TeeReader.readExact at h
  split at h
  · cases h
  · rename_i nb r' hr
    split at h
    · cases h
    · rename_i u w' hw
      cases h
      cases u
      exact ⟨hr, hw⟩

/-- C7: `TeeReader.read_exact` on success mirrors the entire caller buffer
(of exactly the full length of the buffer, given the inner exact-read
length-preservation contract); on failure of the exact-read of the primary it
mirrors nothing and surfaces the failure verbatim. -/
theorem teeReader_readExact_mirrors_full_buffer
    (RO : ReadOps ρ) (WO : WriteOps ω) (c : ω → List Nat)
    (hcap : CapturesAll WO c)
    (hexact : ∀ (s : ρ) (buf buf' : List Nat) (s' : ρ),
      RO.readExact s buf = .ok buf' s' → buf'.length = buf.length) :
    (∀ (t t' : TeeReader ρ ω) (buf buf' : List Nat),
        TeeReader.readExact RO WO t buf = .ok buf' t' →
          c t'.writer = c t.writer ++ buf' ∧ buf'.length = buf.length ∧
            RO.readExact t.reader buf = .ok buf' t'.reader) ∧
    (∀ (t : TeeReader ρ ω) (buf : List Nat) (e : Error) (r' : ρ),
        RO.readExact t.reader buf = .err e r' →
          TeeReader.readExact RO WO t buf = .err e ⟨r', t.writer⟩) := by
  constructor
  · intro t t' buf buf' h
    obtain ⟨hr, hw⟩ := TeeReader.readExact_ok_inv h
    exact ⟨hcap _ _ _ _ hw, hexact _ _ _ _ hr, hr⟩
  · intro t buf e r' h
    unfold TeeReader.readExact
    rw [h]

/-- C7 witness: exact-reading a 2-byte buffer from `[1, 2, 3]` mirrors
`[1, 2]`; exact-reading 2 bytes from the 1-byte source `[5]` fails with no
mirroring. -/
theorem teeReader_readExact_mirrors_full_buffer_witness :
    (id ((⟨[3], [1, 2]⟩ : TeeReader (List Nat) (List Nat)).writer) =
        id ((⟨[1, 2, 3], ([] : List Nat)⟩ : TeeReader (List Nat) (List Nat)).writer) ++
          ([1, 2] : List Nat) ∧
      ([1, 2] : List Nat).length = ([0, 0] : List Nat).length ∧
      bufReader.readExact [1, 2, 3] [0, 0] = .ok [1, 2] [3]) ∧
      TeeReader.readExact bufReader capSink ⟨[5], []⟩ [0, 0] =
        .err 0 ⟨[], []⟩ := by
  have hexact : ∀ (s : List Nat) (buf buf' : List Nat) (s' : List Nat),
      bufReader.readExact s buf = .ok buf' s' → buf'.length = buf.length := by
    intro s buf buf' s' h
    unfold bufReader at h
    dsimp only at h
    split at h
    · rename_i hle
      cases h
      rw [List.length_take]
      omega
    · cases h
  exact ⟨(teeReader_readExact_mirrors_full_buffer bufReader capSink id
        capSink_capturesAll hexact).1
      ⟨[1, 2, 3], []⟩ ⟨[3], [1, 2]⟩ [0, 0] [1, 2] (by decide),
    (teeReader_readExact_mirrors_full_buffer bufReader capSink id
        capSink_capturesAll hexact).2
      ⟨[5], []⟩ [0, 0] 0 [] (by decide)⟩

/-- Inversion for a successful `TeeWriter.writeFmt`: both inner formatted
writes succeeded on the same materialized bytes. -/
theorem TeeWriter.writeFmt_ok_inv {LO : WriteOps l} {RO : WriteOps r}
    {t t' : TeeWriter l r} {bytes : List Nat}
    (h : TeeWriter.writeFmt LO RO t bytes = .ok () t') :
    LO.writeFmt t.left bytes = .ok () t'.left ∧
      RO.writeFmt t.right bytes = .ok () t'.right := by
  unfold TeeWriter.writeFmt at h
  split at h
  · cases h
  · rename_i u l' hl
    split at h
    · cases h
    · rename_i v r' hr
      cases h
      cases u
      cases v
      exact ⟨hl, hr⟩

/-- C8: a successful formatted write through `TeeWriter` extends both the
left and the right captured traces by the same materialized format bytes,
so the bytes the two sides received for the call are identical. -/
theorem teeWriter_writeFmt_byte_identical
    (LO : WriteOps l) (RO : WriteOps r) (cl : l → List Nat) (cr : r → List Nat)
    (hl : CapturesFmt LO cl) (hr : CapturesFmt RO cr)
    (t t' : TeeWriter l r) (bytes : List Nat)
    (h : TeeWriter.writeFmt LO RO t bytes = .ok () t') :
    cl t'.left = cl t.left ++ bytes ∧ cr t'.right = cr t.right ++ bytes ∧
      (cl t'.left).drop (cl t.left).length =
        (cr t'.right).drop (cr t.right).length := by
  obtain ⟨h1, h2⟩ := TeeWriter.writeFmt_ok_inv h
  have e1 := hl _ _ _ _ h1
  have e2 := hr _ _ _ _ h2
  refine ⟨e1, e2, ?_⟩
  rw [e1, e2, List.drop_left, List.drop_left]

/-- C8 witness: formatted output `[104, 105]` lands identically in both
targets. -/
theorem teeWriter_writeFmt_byte_identical_witness :
    id ((⟨[104, 105], [104, 105]⟩ : TeeWriter (List Nat) (List Nat)).left) =
        id ((⟨([] : List Nat), ([] : List Nat)⟩ : TeeWriter (List Nat) (List Nat)).left) ++
          ([104, 105] : List Nat) ∧
      id ((⟨[104, 105], [104, 105]⟩ : TeeWriter (List Nat) (List Nat)).right) =
        id ((⟨([] : List Nat), ([] : List Nat)⟩ : TeeWriter (List Nat) (List Nat)).right) ++
          ([104, 105] : List Nat) ∧
      (id ((⟨[104, 105], [104, 105]⟩ : TeeWriter (List Nat) (List Nat)).left)).drop
          (id ((⟨([] : List Nat), ([] : List Nat)⟩ : TeeWriter (List Nat) (List Nat)).left)).length =
        (id ((⟨[104, 105], [104, 105]⟩ : TeeWriter (List Nat) (List Nat)).right)).drop
          (id ((⟨([] : List Nat), ([] : List Nat)⟩ : TeeWriter (List Nat) (List Nat)).right)).length := by
  have hfmt : CapturesFmt capSink id := by
    intro w bytes u w' h
    cases h
    simp
  exact teeWriter_writeFmt_byte_identical capSink capSink id id hfmt hfmt
    ⟨[], []⟩ ⟨[104, 105], [104, 105]⟩ [104, 105] (by decide)

/-- C9: `TeeWriter.flush` flushes left first; right is flushed only when
the left flush succeeded; a failure on either side is returned. -/
theorem teeWriter_flush_sequential (LO : WriteOps l) (RO : WriteOps r) :
    (∀ (t : TeeWriter l r) (e : Error) (l' : l),
        LO.flush t.left = .err e l' →
          TeeWriter.flush LO RO t = .err e ⟨l', t.right⟩) ∧
    (∀ (t : TeeWriter l r) (l' : l) (e : Error) (r' : r),
        LO.flush t.left = .ok () l' → RO.flush t.right = .err e r' →
          TeeWriter.flush LO RO t = .err e ⟨l', r'⟩) ∧
    (∀ (t : TeeWriter l r) (l' : l) (r' : r),
        LO.flush t.left = .ok () l' → RO.flush t.right = .ok () r' →
          TeeWriter.flush LO RO t = .ok () ⟨l', r'⟩) := by
  refine ⟨?_, ?_, ?_⟩
  · intro t e l' h
    unfold TeeWriter.flush
    rw [h]
  · intro t l' e r' h1 h2
    unfold TeeWriter.flush
    rw [h1, h2]
  · intro t l' r' h1 h2
    unfold TeeWriter.flush
    rw [h1, h2]

/-- C9 witness: a left whose flush fails with error 9 leaves the right
state `[3]` unflushed and untouched; two healthy sides both flush. -/
theorem teeWriter_flush_sequential_witness :
    TeeWriter.flush failSink capSink ⟨(), [3]⟩ = .err 9 ⟨(), [3]⟩ ∧
      TeeWriter.flush capSink capSink ⟨[1], [3]⟩ = .ok () ⟨[1], [3]⟩ :=
  ⟨(teeWriter_flush_sequential failSink capSink).1 ⟨(), [3]⟩ 9 () (by decide),
    (teeWriter_flush_sequential capSink capSink).2.2 ⟨[1], [3]⟩ [1] [3]
      (by decide) (by decide)⟩

/-- C10: every mirror-slice computation indexes the caller buffer with a
count obtained from the inner stream; when the inner stream honors its
contract at the call (read: count bounded by the unchanged buffer length;
appending reads: accumulator grows by the count; write: accepted count at
most the buffer length), the slice bound check passes and the wrapper
never produces the out-of-bounds (`oob`) outcome. -/
theorem tee_slice_indexing_in_bounds
    (RO : ReadOps ρ) (WO : WriteOps ω) (LO : WriteOps l) (RW : WriteOps r) :
    (∀ (t : TeeReader ρ ω) (buf : List Nat),
        (∀ (n : Nat) (buf' : List Nat) (r' : ρ),
            RO.read t.reader buf = .ok (n, buf') r' →
              buf'.length = buf.length ∧ n ≤ buf.length) →
          TeeReader.read RO WO t buf ≠ .oob) ∧
    (∀ (t : TeeReader ρ ω) (buf : List Nat),
        (∀ (n : Nat) (buf' : List Nat) (r' : ρ),
            RO.readToEnd t.reader buf = .ok (n, buf') r' →
              buf'.length = buf.length + n) →
          TeeReader.readToEnd RO WO t buf ≠ .oob) ∧
    (∀ (t : TeeReader ρ ω) (byte : Nat) (buf : List Nat),
        (∀ (n : Nat) (buf' : List Nat) (r' : ρ),
            RO.readUntil t.reader byte buf = .ok (n, buf') r' →
              buf'.length = buf.length + n) →
          TeeReader.readUntil RO WO t byte buf ≠ .oob) ∧
    (∀ (t : TeeReader ρ ω) (buf : List Nat),
        (∀ (n : Nat) (buf' : List Nat) (r' : ρ),
            RO.readLine t.reader buf = .ok (n, buf') r' →
              buf'.length = buf.length + n) →
          TeeReader.readLine RO WO t buf ≠ .oob) ∧
    (∀ (t : TeeWriter l r) (buf : List Nat),
        (∀ (n : Nat) (l' : l),
            LO.write t.left buf = .ok n l' → n ≤ buf.length) →
          TeeWriter.write LO RW t buf ≠ .oob) := by
  refine ⟨?_, ?_, ?_, ?_, ?_⟩
  · intro t buf hc
    unfold TeeReader.read
    split
    · simp
    · rename_i len nb r' hr
      obtain ⟨hbl, hle⟩ := hc _ _ _ hr
      rw [listSlice_of_le (by omega)]
      split
      · rename_i heq
        cases heq
      · split <;> simp
  · intro t buf hc
    unfold TeeReader.readToEnd
    split
    · simp
    · rename_i len nb r' hr
      have hbl := hc _ _ _ hr
      unfold listSlice
      rw [if_pos ⟨Nat.le_add_right _ _, by omega⟩]
      split
      · rename_i heq
        cases heq
      · split <;> simp
  · intro t byte buf hc
    unfold TeeReader.readUntil
    split
    · simp
    · rename_i len nb r' hr
      have hbl := hc _ _ _ hr
      unfold listSlice
      rw [if_pos ⟨Nat.le_add_right _ _, by omega⟩]
      split
      · rename_i heq
        cases heq
      · split <;> simp
  · intro t buf hc
    unfold TeeReader.readLine
    split
    · simp
    · rename_i len nb r' hr
      have hbl := hc _ _ _ hr
      unfold listSlice
      rw [if_pos ⟨Nat.le_add_right _ _, by omega⟩]
      split
      · rename_i heq
        cases heq
      · split <;> simp
  · intro t buf hc
    unfold TeeWriter.write
    split
    · simp
    · rename_i n l' hl
      have hle := hc _ _ hl
      rw [listSlice_of_le hle]
      split
      · rename_i heq
        cases heq
      · split <;> simp

/-- C10 witness: with a contract-honoring reader and writer the embedded
operations do not hit the out-of-bounds branch at concrete inputs. -/
theorem tee_slice_indexing_in_bounds_witness :
    TeeReader.read bufReader capSink ⟨[1], [9]⟩ [0, 0] ≠ .oob ∧
      TeeWriter.write capSink capSink ⟨[], []⟩ [1, 2] ≠ .oob :=
  ⟨(tee_slice_indexing_in_bounds bufReader capSink capSink capSink).1
      ⟨[1], [9]⟩ [0, 0]
      (by
        intro n buf' r' h
        have he : bufReader.read ((⟨[1], [9]⟩ : TeeReader (List Nat) (List Nat)).reader)
            [0, 0] = StRes.ok (1, [1, 0]) [] := by decide
        rw [he] at h
        cases h
        decide),
    (tee_slice_indexing_in_bounds bufReader capSink capSink capSink).2.2.2.2
      ⟨[], []⟩ [1, 2]
      (by
        intro n l' h
        have he : capSink.write ((⟨[], []⟩ : TeeWriter (List Nat) (List Nat)).left)
            [1, 2] = StRes.ok 2 [1, 2] := by decide
        rw [he] at h
        cases h
        decide)⟩

end IoTee
